import Mathlib

/-!
Shallow embedding of the secure-transport layer of this repository:
the `SecureSessionHandle` value type, the `EncryptedPacketBufferHandle`
wrapper, the `MessagePacketBuffer` allocation helpers, the
`SecureSessionMgrDelegate` default callbacks, the `SecureSessionMgr`
state machine, the mDNS `BaseAdvertisingParams` builder, and the
generated window-covering command parser.
-/

namespace Chip

/-- `Transport::AdminId` sentinel for "no admin id".
Modelled from the spec: `kUndefinedAdminId` is declared in
`transport/AdminPairingTable.h`, which is not in scope; it is the
`uint16_t` sentinel value reserved to mean "absent admin id". -/
def kUndefinedAdminId : Nat := 65535

/-- `chip::SecureSessionHandle`: peer node id (`NodeId`, u64), peer key id
(u16), and admin id (u16, `kUndefinedAdminId` when absent). -/
structure SecureSessionHandle where
  mPeerNodeId : Nat
  mPeerKeyId : Nat
  mAdmin : Nat
deriving DecidableEq, Repr

/-- `SecureSessionHandle::operator==`: field-by-field comparison of
peer node id, peer key id and admin id. -/
def SecureSessionHandle.eqb (a b : SecureSessionHandle) : Bool :=
  a.mPeerNodeId == b.mPeerNodeId && a.mPeerKeyId == b.mPeerKeyId && a.mAdmin == b.mAdmin

/-- `SecureSessionHandle::HasAdminId`. -/
def SecureSessionHandle.HasAdminId (h : SecureSessionHandle) : Bool :=
  h.mAdmin != kUndefinedAdminId

/-- `SecureSessionHandle::GetAdminId`. -/
def SecureSessionHandle.GetAdminId (h : SecureSessionHandle) : Nat := h.mAdmin

/-- `SecureSessionHandle::SetAdminId`: assigns the admin id field only. -/
def SecureSessionHandle.SetAdminId (h : SecureSessionHandle) (adminId : Nat) :
    SecureSessionHandle :=
  { h with mAdmin := adminId }

/-- `SecureSessionHandle::GetPeerNodeId`. -/
def SecureSessionHandle.GetPeerNodeId (h : SecureSessionHandle) : Nat := h.mPeerNodeId

/-- `SecureSessionHandle::GetPeerKeyId`. -/
def SecureSessionHandle.GetPeerKeyId (h : SecureSessionHandle) : Nat := h.mPeerKeyId

/-- Modelled from the spec: `Crypto` layer constant `kMaxTagLen` (the AEAD
authentication-tag length) is declared outside the files in scope; only
its positivity and its role as the footer reservation matter here. -/
def kMaxTagLen : Nat := 16

/-- `MessagePacketBuffer::kMaxFooterSize = kMaxTagLen`: maximum size of a
message footer, in bytes. -/
def MessagePacketBuffer.kMaxFooterSize : Nat := kMaxTagLen

/-- A `System::PacketBuffer`: a variable-length byte buffer. `data` is the
octets currently stored, `maxDataLength` the total data capacity of the
allocation, and `chained` whether a further buffer is chained behind this
one. Modelled from the spec: the `System::PacketBuffer` internals live in
`system/SystemPacketBuffer.h`, outside the files in scope. -/
structure PacketBuffer where
  data : List Nat
  maxDataLength : Nat
  chained : Bool
deriving DecidableEq, Repr

/-- `PacketBuffer::AvailableDataLength`: remaining space for data. -/
def PacketBuffer.AvailableDataLength (b : PacketBuffer) : Nat :=
  b.maxDataLength - b.data.length

/-- Appending payload octets to a buffer (the effect of the writer filling
the buffer after allocation). -/
def PacketBuffer.append (b : PacketBuffer) (payload : List Nat) : PacketBuffer :=
  { b with data := b.data ++ payload }

/-- Modelled from the spec: `System::PacketBuffer::kMaxSize`, the maximum
supported buffer size, a deployment-time constant declared outside the
files in scope; the header's `static_assert` requires it to exceed
`kMaxFooterSize`. -/
def PacketBuffer.kMaxSize : Nat := 1583

/-- Modelled from the spec: `System::PacketBufferHandle::New(size)` asks the
underlying allocator for a buffer with `size` octets of data capacity and
returns an empty handle (`none`) when the allocation fails. The allocator
is abstracted as the oracle `alloc`. -/
def PacketBufferHandle.New (alloc : Nat → Bool) (size : Nat) : Option PacketBuffer :=
  if alloc size then some { data := [], maxDataLength := size, chained := false } else none

/-- `MessagePacketBuffer::New(aAvailableSize)`: rejects requests above
`kMaxSize - kMaxFooterSize` with an empty handle, otherwise allocates
`aAvailableSize + kMaxFooterSize` octets of capacity. -/
def MessagePacketBuffer.New (alloc : Nat → Bool) (aAvailableSize : Nat) :
    Option PacketBuffer :=
  if aAvailableSize > PacketBuffer.kMaxSize - MessagePacketBuffer.kMaxFooterSize then
    none
  else
    PacketBufferHandle.New alloc (aAvailableSize + MessagePacketBuffer.kMaxFooterSize)

/-- `MessagePacketBuffer::HasFooterSpace(aBuffer)`:
`aBuffer->AvailableDataLength() >= kMaxFooterSize`. -/
def MessagePacketBuffer.HasFooterSpace (aBuffer : PacketBuffer) : Bool :=
  aBuffer.AvailableDataLength ≥ MessagePacketBuffer.kMaxFooterSize

/-- Modelled from the spec: `System::PacketBufferHandle::CloneData`, whose
body lives outside the files in scope: a byte-for-byte copy of a single
(non-chained) buffer; an empty handle for a chained buffer or when the
allocation fails. -/
def PacketBufferHandle.CloneData (alloc : Nat → Bool) (b : PacketBuffer) :
    Option PacketBuffer :=
  if b.chained then none
  else if alloc b.maxDataLength then
    some { data := b.data, maxDataLength := b.maxDataLength, chained := false }
  else none

/-- `chip::EncryptedPacketBufferHandle`: a packet-buffer handle whose
payload is already encrypted. An empty handle is `none`. -/
structure EncryptedPacketBufferHandle where
  handle : Option PacketBuffer
deriving DecidableEq, Repr

/-- `EncryptedPacketBufferHandle::CloneData`: wraps
`PacketBufferHandle::CloneData` of the held buffer back into an
`EncryptedPacketBufferHandle`. -/
def EncryptedPacketBufferHandle.CloneData (alloc : Nat → Bool)
    (e : EncryptedPacketBufferHandle) : EncryptedPacketBufferHandle :=
  ⟨e.handle.bind (PacketBufferHandle.CloneData alloc)⟩

/-- The error taxonomy of the transport core (spec section 7), together
with the success value `noError` (`CHIP_NO_ERROR`) and the delegate's
queue-full result `noMemory` (`CHIP_ERROR_NO_MEMORY`). -/
inductive ChipError where
  | noError
  | notInitialized
  | alreadyInitialized
  | resourceExhausted
  | noSession
  | encryptionFailed
  | duplicateOrStale
  | malformedPacket
  | keyDerivationFailed
  | noMemory
deriving DecidableEq, Repr

/-- Minimal model of `PacketHeader` (opaque to the claims in scope). -/
structure PacketHeader where
  raw : List Nat
deriving DecidableEq, Repr

/-- Minimal model of `PayloadHeader` (opaque to the claims in scope). -/
structure PayloadHeader where
  raw : List Nat
deriving DecidableEq, Repr

/-- Minimal model of `Transport::PeerAddress` (opaque to the claims in
scope). -/
structure PeerAddress where
  raw : Nat
deriving DecidableEq, Repr

/-- `Transport::PeerConnectionState`: one entry of the peer-connection
pool. Modelled from the spec: the full class lives in
`transport/PeerConnections.h`, outside the files in scope; the spec
(section 3) lists identity, peer address, last-activity timestamp and the
send counter. -/
structure PeerConnectionState where
  mPeerNodeId : Nat
  mPeerKeyId : Nat
  mAdmin : Nat
  mPeerAddress : PeerAddress
  mSendCounter : Nat
  mLastActivityTimeMs : Nat
deriving DecidableEq, Repr

/-- An observable action performed inside a delegate callback body; the
default bodies in the header perform none, so they produce the empty
list. -/
inductive DelegateAction where
  | act (tag : Nat)
deriving DecidableEq, Repr

/-- `chip::SecureSessionMgrDelegate`: every virtual callback carries a
default implementation (an empty body, or `return CHIP_NO_ERROR` for
`QueueReceivedMessageAndSync`), given here as the field default values, so
a delegate may override any subset and ignore the rest. -/
structure SecureSessionMgrDelegate where
  OnMessageReceived : PacketHeader → PayloadHeader → SecureSessionHandle → PeerAddress →
    Option PacketBuffer → List DelegateAction := fun _ _ _ _ _ => []
  OnReceiveError : ChipError → PeerAddress → List DelegateAction := fun _ _ => []
  OnNewConnection : SecureSessionHandle → List DelegateAction := fun _ => []
  OnConnectionExpired : SecureSessionHandle → List DelegateAction := fun _ => []
  QueueReceivedMessageAndSync : Option PeerConnectionState → Option PacketBuffer →
    ChipError × List DelegateAction := fun _ _ => (ChipError.noError, [])

/-- The delegate that overrides nothing: every callback keeps its default
implementation from the header. -/
def defaultDelegate : SecureSessionMgrDelegate := {}

/-- `SecureSessionMgr::State`: the initialization state of the manager. -/
inductive MgrState where
  | kNotReady
  | kInitialized
deriving DecidableEq, Repr

/-- `SecureSessionMgr::PairingDirection`. -/
inductive PairingDirection where
  | kInitiator
  | kResponder
deriving DecidableEq, Repr

/-- Modelled from the spec: the opaque `PairingSession` input
(`transport/PairingSession.h` is outside the files in scope) exposes the
negotiated peer key id and whether valid derived keys are present. -/
structure PairingSession where
  mPeerKeyId : Nat
  mHasKeys : Bool
deriving DecidableEq, Repr

/-- The observable state of a `chip::SecureSessionMgr`: its state enum,
the peer-connection pool (bounded by `mPoolCapacity`, the
`CHIP_CONFIG_PEER_CONNECTION_POOL_SIZE` deployment constant), the local
node id and the expiry-timer flag. Modelled from the spec: the method
bodies live in `SecureSessionMgr.cpp`, outside the files in scope; the
header in scope declares the fields and the spec (sections 3, 4.4-4.7)
their behaviour. -/
structure SecureSessionMgr where
  mState : MgrState
  mLocalNodeId : Nat
  mPeerConnections : List PeerConnectionState
  mPoolCapacity : Nat
  mTimerArmed : Bool
deriving DecidableEq, Repr

/-- `SecureSessionMgr::GetPeerConnectionState`: pool lookup by the
session's peer node id and peer key id. -/
def SecureSessionMgr.GetPeerConnectionState (mgr : SecureSessionMgr)
    (session : SecureSessionHandle) : Option PeerConnectionState :=
  mgr.mPeerConnections.find? fun s =>
    s.mPeerNodeId == session.mPeerNodeId && s.mPeerKeyId == session.mPeerKeyId

/-- Refresh the activity timestamp (and optionally step the send counter)
of the pool entry matching `session`. -/
def SecureSessionMgr.touchEntry (mgr : SecureSessionMgr) (session : SecureSessionHandle)
    (now : Nat) (stepCounter : Bool) : SecureSessionMgr :=
  { mgr with
    mPeerConnections := mgr.mPeerConnections.map fun s =>
      if s.mPeerNodeId == session.mPeerNodeId && s.mPeerKeyId == session.mPeerKeyId then
        { s with
          mSendCounter := if stepCounter then s.mSendCounter + 1 else s.mSendCounter
          mLastActivityTimeMs := now }
      else s }

/-- Modelled from the spec: `SecureSessionMgr::Init` (body not in scope).
`kNotReady` is the only state it accepts; from `kInitialized` it fails
with `AlreadyInitialized`; on success it records the local node id, arms
the expiry timer and becomes `kInitialized` (spec section 4.4). -/
def SecureSessionMgr.Init (mgr : SecureSessionMgr) (localNodeId : Nat) :
    ChipError × SecureSessionMgr :=
  if mgr.mState = MgrState.kInitialized then (ChipError.alreadyInitialized, mgr)
  else
    (ChipError.noError,
      { mgr with
        mState := MgrState.kInitialized
        mLocalNodeId := localNodeId
        mTimerArmed := true })

/-- Modelled from the spec: `SecureSessionMgr::Shutdown` (body not in
scope) cancels the expiry timer, clears the connection pool and returns
the manager to `kNotReady` (spec section 4.4). -/
def SecureSessionMgr.Shutdown (mgr : SecureSessionMgr) : SecureSessionMgr :=
  { mgr with
    mState := MgrState.kNotReady
    mPeerConnections := []
    mTimerArmed := false }

/-- Modelled from the spec: `SecureSessionMgr::SendMessage` (body not in
scope). While `kNotReady` every session operation fails with
`NotInitialized` and performs no side effects (spec sections 4.4, 8);
while `kInitialized` it looks up the session (`NoSession` when absent),
requires footer space for in-place encryption (`EncryptionFailed`
otherwise), then increments the send counter and refreshes the activity
timestamp (spec section 4.6). -/
def SecureSessionMgr.SendMessage (mgr : SecureSessionMgr) (session : SecureSessionHandle)
    (now : Nat) (msgBuf : PacketBuffer) : ChipError × SecureSessionMgr :=
  if mgr.mState = MgrState.kNotReady then (ChipError.notInitialized, mgr)
  else
    match mgr.GetPeerConnectionState session with
    | none => (ChipError.noSession, mgr)
    | some _ =>
        if MessagePacketBuffer.HasFooterSpace msgBuf then
          (ChipError.noError, mgr.touchEntry session now true)
        else (ChipError.encryptionFailed, mgr)

/-- Modelled from the spec: `SecureSessionMgr::SendEncryptedMessage` (body
not in scope) resends an already-encrypted buffer verbatim: same guards as
`SendMessage` but no encryption step and no counter increment (spec
section 4.6). -/
def SecureSessionMgr.SendEncryptedMessage (mgr : SecureSessionMgr)
    (session : SecureSessionHandle) (now : Nat) (msgBuf : EncryptedPacketBufferHandle) :
    ChipError × SecureSessionMgr :=
  if mgr.mState = MgrState.kNotReady then (ChipError.notInitialized, mgr)
  else
    match mgr.GetPeerConnectionState session with
    | none => (ChipError.noSession, mgr)
    | some _ =>
        match msgBuf.handle with
        | none => (ChipError.malformedPacket, mgr)
        | some _ => (ChipError.noError, mgr.touchEntry session now false)

/-- Modelled from the spec: `SecureSessionMgr::NewPairing` (body not in
scope). While `kNotReady` it fails with `NotInitialized` and performs no
side effects; otherwise it fails with `KeyDerivationFailed` when the
pairing session has no valid keys, with `ResourceExhausted` when the pool
is full, and on success inserts a fresh `PeerConnectionState` built from
the pairing session (spec section 4.5). -/
def SecureSessionMgr.NewPairing (mgr : SecureSessionMgr) (peerAddr : Option PeerAddress)
    (peerNodeId : Nat) (pairing : PairingSession) (direction : PairingDirection)
    (admin : Nat) (now : Nat) : ChipError × SecureSessionMgr :=
  if mgr.mState = MgrState.kNotReady then (ChipError.notInitialized, mgr)
  else if pairing.mHasKeys = false then (ChipError.keyDerivationFailed, mgr)
  else if mgr.mPoolCapacity ≤ mgr.mPeerConnections.length then
    (ChipError.resourceExhausted, mgr)
  else
    (ChipError.noError,
      { mgr with
        mPeerConnections :=
          { mPeerNodeId := peerNodeId
            mPeerKeyId := pairing.mPeerKeyId
            mAdmin := admin
            mPeerAddress := peerAddr.getD ⟨0⟩
            mSendCounter := 0
            mLastActivityTimeMs := now } :: mgr.mPeerConnections })

/-- Modelled from the spec: `SecureSessionMgr::HandleGroupMessageReceived`
(body not in scope) re-runs the receive path for a previously queued
message once counter sync for `keyId` completed; while `kNotReady` it
fails with `NotInitialized` and performs no side effects, otherwise it
looks up the pool entry with that key id and refreshes it, or reports
`NoSession` when the key id is still unknown (spec section 4.7). -/
def SecureSessionMgr.HandleGroupMessageReceived (mgr : SecureSessionMgr) (keyId : Nat)
    (msgBuf : PacketBuffer) (now : Nat) : ChipError × SecureSessionMgr :=
  if mgr.mState = MgrState.kNotReady then (ChipError.notInitialized, mgr)
  else
    match mgr.mPeerConnections.find? (fun s => s.mPeerKeyId == keyId) with
    | none => (ChipError.noSession, mgr)
    | some s =>
        (ChipError.noError,
          mgr.touchEntry ⟨s.mPeerNodeId, s.mPeerKeyId, s.mAdmin⟩ now false)

end Chip

namespace Chip.Mdns

/-- `chip::Mdns::kMaxMacSize`: 8 bytes, enough to fit a thread mac. -/
def kMaxMacSize : Nat := 8

/-- `chip::Mdns::BaseAdvertisingParams`: port, IPv4 flag, and the fixed
8-byte MAC storage with its stored length. Field defaults mirror the
in-class member initializers (`CHIP_PORT` = 5540 is declared outside the
files in scope). -/
structure BaseAdvertisingParams where
  mPort : Nat := 5540
  mEnableIPv4 : Bool := true
  mMacStorage : List Nat := List.replicate kMaxMacSize 0
  mMacLength : Nat := 0
deriving DecidableEq, Repr

/-- `BaseAdvertisingParams::SetPort`. -/
def BaseAdvertisingParams.SetPort (p : BaseAdvertisingParams) (port : Nat) :
    BaseAdvertisingParams :=
  { p with mPort := port }

/-- `BaseAdvertisingParams::EnableIpV4`. -/
def BaseAdvertisingParams.EnableIpV4 (p : BaseAdvertisingParams) (enable : Bool) :
    BaseAdvertisingParams :=
  { p with mEnableIPv4 := enable }

/-- `BaseAdvertisingParams::SetMac`: stores
`mMacLength = min(mac.size(), kMaxMacSize)` and copies that many leading
octets of `mac` into the front of `mMacStorage` (the `memcpy`), leaving
the rest of the storage as it was. -/
def BaseAdvertisingParams.SetMac (p : BaseAdvertisingParams) (mac : List Nat) :
    BaseAdvertisingParams :=
  { p with
    mMacLength := min mac.length kMaxMacSize
    mMacStorage := mac.take (min mac.length kMaxMacSize) ++
      p.mMacStorage.drop (min mac.length kMaxMacSize) }

/-- `BaseAdvertisingParams::GetMac`: the span of the first `mMacLength`
octets of `mMacStorage`. -/
def BaseAdvertisingParams.GetMac (p : BaseAdvertisingParams) : List Nat :=
  p.mMacStorage.take p.mMacLength

end Chip.Mdns

namespace WindowApp

/-- `EmberAfStatus` values produced by the generated window-covering
command handler. -/
inductive EmberAfStatus where
  | SUCCESS
  | UNSUP_MANUF_CLUSTER_COMMAND
  | UNSUP_COMMAND
  | UNSUPPORTED_CLUSTER
  | MALFORMED_COMMAND
deriving DecidableEq, Repr

/-- The window-covering command ids the generated handler switches on. The
numeric `ZCL_*_COMMAND_ID` constants live in the generated `command-id.h`,
outside the files in scope; only their distinctness matters to the switch,
so they are modelled as constructors, with `other` covering every
unrecognized id. -/
inductive WCCommandId where
  | DownClose
  | GoToLiftPercentage
  | GoToLiftValue
  | GoToTiltPercentage
  | GoToTiltValue
  | Stop
  | UpOpen
  | other (id : Nat)
deriving DecidableEq, Repr

/-- The fields of `EmberAfClusterCommand` read by the handler. -/
structure EmberAfClusterCommand where
  mfgSpecific : Bool
  commandId : WCCommandId
  payloadStartIndex : Nat
  bufLen : Nat
  buffer : List Nat
deriving DecidableEq, Repr

/-- `emberAfGetInt8u(buffer, offset, len)`: read one octet at `offset`. -/
def emberAfGetInt8u (buffer : List Nat) (offset : Nat) (_len : Nat) : Nat :=
  buffer.getD offset 0

/-- `emberAfGetInt16u(buffer, offset, len)`: read two octets
little-endian starting at `offset`. -/
def emberAfGetInt16u (buffer : List Nat) (offset : Nat) (_len : Nat) : Nat :=
  buffer.getD offset 0 + 256 * buffer.getD (offset + 1) 0

/-- The cluster callbacks the parser can invoke, with their decoded
arguments. -/
inductive WCCallback where
  | DownClose
  | GoToLiftPercentage (percentageLiftValue : Nat)
  | GoToLiftValue (liftValue : Nat)
  | GoToTiltPercentage (percentageTiltValue : Nat)
  | GoToTiltValue (tiltValue : Nat)
  | Stop
  | UpOpen
deriving DecidableEq, Repr

/-- The static `status(wasHandled, clusterExists, mfgSpecific)` helper of
`call-command-handler.cpp`. -/
def status (wasHandled clusterExists mfgSpecific : Bool) : EmberAfStatus :=
  if wasHandled then .SUCCESS
  else if mfgSpecific then .UNSUP_MANUF_CLUSTER_COMMAND
  else if clusterExists then .UNSUP_COMMAND
  else .UNSUPPORTED_CLUSTER

/-- `emberAfWindowCoveringClusterServerCommandParse(cmd)`. The installed
cluster callbacks are abstracted as `handler` (its Bool result is
`wasHandled`); the second component of the result records every callback
invocation the call performs, in order. When `cmd->mfgSpecific` is set the
switch is skipped and `wasHandled` stays false. -/
def emberAfWindowCoveringClusterServerCommandParse (handler : WCCallback → Bool)
    (cmd : EmberAfClusterCommand) : EmberAfStatus × List WCCallback :=
  if cmd.mfgSpecific then (status false true true, [])
  else
    match cmd.commandId with
    | .DownClose => (status (handler .DownClose) true false, [.DownClose])
    | .GoToLiftPercentage =>
        if cmd.bufLen < cmd.payloadStartIndex + 1 then (.MALFORMED_COMMAND, [])
        else
          (status (handler (.GoToLiftPercentage
              (emberAfGetInt8u cmd.buffer cmd.payloadStartIndex cmd.bufLen))) true false,
            [.GoToLiftPercentage (emberAfGetInt8u cmd.buffer cmd.payloadStartIndex cmd.bufLen)])
    | .GoToLiftValue =>
        if cmd.bufLen < cmd.payloadStartIndex + 2 then (.MALFORMED_COMMAND, [])
        else
          (status (handler (.GoToLiftValue
              (emberAfGetInt16u cmd.buffer cmd.payloadStartIndex cmd.bufLen))) true false,
            [.GoToLiftValue (emberAfGetInt16u cmd.buffer cmd.payloadStartIndex cmd.bufLen)])
    | .GoToTiltPercentage =>
        if cmd.bufLen < cmd.payloadStartIndex + 1 then (.MALFORMED_COMMAND, [])
        else
          (status (handler (.GoToTiltPercentage
              (emberAfGetInt8u cmd.buffer cmd.payloadStartIndex cmd.bufLen))) true false,
            [.GoToTiltPercentage (emberAfGetInt8u cmd.buffer cmd.payloadStartIndex cmd.bufLen)])
    | .GoToTiltValue =>
        if cmd.bufLen < cmd.payloadStartIndex + 2 then (.MALFORMED_COMMAND, [])
        else
          (status (handler (.GoToTiltValue
              (emberAfGetInt16u cmd.buffer cmd.payloadStartIndex cmd.bufLen))) true false,
            [.GoToTiltValue (emberAfGetInt16u cmd.buffer cmd.payloadStartIndex cmd.bufLen)])
    | .Stop => (status (handler .Stop) true false, [.Stop])
    | .UpOpen => (status (handler .UpOpen) true false, [.UpOpen])
    | .other _ => (status false true false, [])

end WindowApp

/-- C2: two `SecureSessionHandle` values compare equal under `operator==`
iff their peer node ids, peer key ids and admin ids (the
`kUndefinedAdminId` sentinel included, compared as an ordinary value)
all coincide. -/
theorem secureSessionHandle_eqb_iff (a b : Chip.SecureSessionHandle) :
    a.eqb b = true ↔
      a.mPeerNodeId = b.mPeerNodeId ∧ a.mPeerKeyId = b.mPeerKeyId ∧ a.mAdmin = b.mAdmin := by
  simp [Chip.SecureSessionHandle.eqb, and_assoc]

/-- C8: `SetAdminId` updates only the admin id: the peer node id and peer
key id observed through `GetPeerNodeId` and `GetPeerKeyId` are unchanged,
and the admin id becomes exactly the assigned value. -/
theorem setAdminId_frame (h : Chip.SecureSessionHandle) (a : Nat) :
    (h.SetAdminId a).GetPeerNodeId = h.GetPeerNodeId ∧
    (h.SetAdminId a).GetPeerKeyId = h.GetPeerKeyId ∧
    (h.SetAdminId a).GetAdminId = a := by
  refine ⟨rfl, rfl, rfl⟩

/-- C3: `MessagePacketBuffer::New(n)` returns an empty handle exactly when
`n > PacketBuffer::kMaxSize - kMaxFooterSize` or the underlying allocation
of `n + kMaxFooterSize` octets fails, and any buffer it does return has
capacity for the requested `n` octets plus the `kMaxFooterSize` footer. -/
theorem messagePacketBuffer_new_spec (alloc : Nat → Bool) (n : Nat) :
    (Chip.MessagePacketBuffer.New alloc n = none ↔
      n > Chip.PacketBuffer.kMaxSize - Chip.MessagePacketBuffer.kMaxFooterSize ∨
      alloc (n + Chip.MessagePacketBuffer.kMaxFooterSize) = false) ∧
    (Chip.MessagePacketBuffer.New alloc n).all
      (fun b => b.maxDataLength == n + Chip.MessagePacketBuffer.kMaxFooterSize) = true := by
  constructor
  · unfold Chip.MessagePacketBuffer.New Chip.PacketBufferHandle.New
    by_cases h1 : n > Chip.PacketBuffer.kMaxSize - Chip.MessagePacketBuffer.kMaxFooterSize
    · simp [h1]
    · by_cases h2 : alloc (n + Chip.MessagePacketBuffer.kMaxFooterSize) = true
      · simp [h1, h2]
      · simp only [Bool.not_eq_true] at h2
        simp [h1, h2]
  · unfold Chip.MessagePacketBuffer.New Chip.PacketBufferHandle.New
    by_cases h1 : n > Chip.PacketBuffer.kMaxSize - Chip.MessagePacketBuffer.kMaxFooterSize
    · simp [h1]
    · by_cases h2 : alloc (n + Chip.MessagePacketBuffer.kMaxFooterSize) = true
      · simp [h1, h2]
      · simp only [Bool.not_eq_true] at h2
        simp [h1, h2]

/-- C6: a buffer allocated by `MessagePacketBuffer::New(n)` and then filled
with at most `n` octets of payload still has footer space, and
`HasFooterSpace` holds exactly when the available data length is at least
`kMaxFooterSize`. -/
theorem hasFooterSpace_spec (alloc : Nat → Bool) (n : Nat) (payload : List Nat)
    (b : Chip.PacketBuffer)
    (hb : Chip.MessagePacketBuffer.New alloc n = some b)
    (hlen : payload.length ≤ n) :
    Chip.MessagePacketBuffer.HasFooterSpace (b.append payload) = true ∧
    ∀ c : Chip.PacketBuffer,
      (Chip.MessagePacketBuffer.HasFooterSpace c = true ↔
        Chip.MessagePacketBuffer.kMaxFooterSize ≤ c.AvailableDataLength) := by
  unfold Chip.MessagePacketBuffer.New Chip.PacketBufferHandle.New at hb
  constructor
  · split at hb
    · exact absurd hb (by simp)
    · split at hb
      · injection hb with hb
        subst hb
        simp only [Chip.MessagePacketBuffer.HasFooterSpace, Chip.PacketBuffer.append,
          Chip.PacketBuffer.AvailableDataLength, decide_eq_true_iff]
        simp only [List.nil_append, List.length_nil]
        omega
      · exact absurd hb (by simp)
  · intro c
    simp [Chip.MessagePacketBuffer.HasFooterSpace]

/-- C6 witness: a buffer from `New(3)` filled with 2 payload octets keeps
footer space. -/
theorem hasFooterSpace_spec_witness :
    Chip.MessagePacketBuffer.HasFooterSpace
      ((Chip.PacketBuffer.mk [] 19 false).append [7, 8]) = true :=
  (hasFooterSpace_spec (fun _ => true) 3 [7, 8] (Chip.PacketBuffer.mk [] 19 false)
    (by decide) (by decide)).1

/-- C5: cloning an `EncryptedPacketBufferHandle` that holds a single
non-chained buffer yields a byte-for-byte copy (same octets, same
capacity); a chained buffer, or an allocation failure, yields an empty
handle instead. -/
theorem encryptedClone_spec (alloc : Nat → Bool) (b : Chip.PacketBuffer) :
    (b.chained = false → alloc b.maxDataLength = true →
      (Chip.EncryptedPacketBufferHandle.CloneData alloc ⟨some b⟩).handle =
        some { data := b.data, maxDataLength := b.maxDataLength, chained := false }) ∧
    (b.chained = true →
      (Chip.EncryptedPacketBufferHandle.CloneData alloc ⟨some b⟩).handle = none) ∧
    (alloc b.maxDataLength = false →
      (Chip.EncryptedPacketBufferHandle.CloneData alloc ⟨some b⟩).handle = none) := by
  refine ⟨?_, ?_, ?_⟩
  · intro h1 h2
    simp [Chip.EncryptedPacketBufferHandle.CloneData, Chip.PacketBufferHandle.CloneData, h1, h2]
  · intro h1
    simp [Chip.EncryptedPacketBufferHandle.CloneData, Chip.PacketBufferHandle.CloneData, h1]
  · intro h1
    simp [Chip.EncryptedPacketBufferHandle.CloneData, Chip.PacketBufferHandle.CloneData, h1]

/-- C5 witness: cloning a concrete single-buffer handle copies its three
octets exactly. -/
theorem encryptedClone_spec_witness :
    (Chip.EncryptedPacketBufferHandle.CloneData (fun _ => true)
        ⟨some (Chip.PacketBuffer.mk [1, 2, 3] 5 false)⟩).handle =
      some (Chip.PacketBuffer.mk [1, 2, 3] 5 false) :=
  (encryptedClone_spec (fun _ => true) (Chip.PacketBuffer.mk [1, 2, 3] 5 false)).1 rfl rfl

/-- C7: the delegate that overrides nothing is well-formed (every callback
of `SecureSessionMgrDelegate` has a default implementation), its void
callbacks perform no action on any input, and its default
`QueueReceivedMessageAndSync` returns `CHIP_NO_ERROR` on every input. -/
theorem delegate_defaults (ph : Chip.PacketHeader) (plh : Chip.PayloadHeader)
    (s : Chip.SecureSessionHandle) (src : Chip.PeerAddress)
    (buf : Option Chip.PacketBuffer) (e : Chip.ChipError)
    (st : Option Chip.PeerConnectionState) (msg : Option Chip.PacketBuffer) :
    Chip.defaultDelegate.OnMessageReceived ph plh s src buf = [] ∧
    Chip.defaultDelegate.OnReceiveError e src = [] ∧
    Chip.defaultDelegate.OnNewConnection s = [] ∧
    Chip.defaultDelegate.OnConnectionExpired s = [] ∧
    Chip.defaultDelegate.QueueReceivedMessageAndSync st msg = (Chip.ChipError.noError, []) :=
  ⟨rfl, rfl, rfl, rfl, rfl⟩

/-- C9: `SetMac` silently truncates to `kMaxMacSize` (8) octets: after
`SetMac(mac)`, `GetMac` returns exactly the first `min(mac.size(), 8)`
octets of `mac`, of that length, and no error is reported for longer
inputs (`SetMac` is total and always returns the updated object). -/
theorem setMac_truncates (p : Chip.Mdns.BaseAdvertisingParams) (mac : List Nat) :
    (p.SetMac mac).GetMac = mac.take (min mac.length Chip.Mdns.kMaxMacSize) ∧
    (p.SetMac mac).GetMac.length = min mac.length Chip.Mdns.kMaxMacSize := by
  have hlen : (mac.take (min mac.length Chip.Mdns.kMaxMacSize)).length
      = min mac.length Chip.Mdns.kMaxMacSize := by
    rw [List.length_take]
    omega
  have hmain : (p.SetMac mac).GetMac = mac.take (min mac.length Chip.Mdns.kMaxMacSize) := by
    simp only [Chip.Mdns.BaseAdvertisingParams.SetMac, Chip.Mdns.BaseAdvertisingParams.GetMac]
    exact List.take_left' hlen
  exact ⟨hmain, by rw [hmain, hlen]⟩

/-- C10: a Go-To-Lift-Percentage command whose buffer is too short for its
1-octet payload (`bufLen < payloadStartIndex + 1`), and a Go-To-Lift-Value
command whose buffer is too short for its 2-octet payload
(`bufLen < payloadStartIndex + 2`), make
`emberAfWindowCoveringClusterServerCommandParse` return
`EMBER_ZCL_STATUS_MALFORMED_COMMAND` without invoking any cluster
callback. -/
theorem windowCovering_shortBuffer_malformed (handler : WindowApp.WCCallback → Bool)
    (cmd : WindowApp.EmberAfClusterCommand) (hmfg : cmd.mfgSpecific = false) :
    (cmd.commandId = .GoToLiftPercentage → cmd.bufLen < cmd.payloadStartIndex + 1 →
      WindowApp.emberAfWindowCoveringClusterServerCommandParse handler cmd =
        (.MALFORMED_COMMAND, [])) ∧
    (cmd.commandId = .GoToLiftValue → cmd.bufLen < cmd.payloadStartIndex + 2 →
      WindowApp.emberAfWindowCoveringClusterServerCommandParse handler cmd =
        (.MALFORMED_COMMAND, [])) := by
  constructor <;> intro hid hlt <;>
    simp [WindowApp.emberAfWindowCoveringClusterServerCommandParse, hmfg, hid, hlt]

/-- C10 witness: a concrete Go-To-Lift-Percentage command with
`payloadStartIndex = 3` and `bufLen = 3` parses to
`MALFORMED_COMMAND` with no callback invoked. -/
theorem windowCovering_shortBuffer_malformed_witness :
    WindowApp.emberAfWindowCoveringClusterServerCommandParse (fun _ => true)
      (WindowApp.EmberAfClusterCommand.mk false .GoToLiftPercentage 3 3 []) =
      (.MALFORMED_COMMAND, []) :=
  (windowCovering_shortBuffer_malformed (fun _ => true)
    (WindowApp.EmberAfClusterCommand.mk false .GoToLiftPercentage 3 3 []) rfl).1 rfl
    (by decide)

/-- C1: every session operation (`SendMessage`, `SendEncryptedMessage`,
`NewPairing`, `HandleGroupMessageReceived`) invoked while the manager is
`kNotReady` (before `Init` or after `Shutdown`) fails with
`NotInitialized` and leaves the manager's observable state — state enum,
connection-pool contents, counters, timer flag — exactly as it was. -/
theorem notReady_ops_fail (mgr : Chip.SecureSessionMgr)
    (session : Chip.SecureSessionHandle) (now : Nat) (buf : Chip.PacketBuffer)
    (ebuf : Chip.EncryptedPacketBufferHandle) (peerAddr : Option Chip.PeerAddress)
    (peerNodeId : Nat) (pairing : Chip.PairingSession)
    (direction : Chip.PairingDirection) (admin : Nat) (keyId : Nat)
    (hst : mgr.mState = Chip.MgrState.kNotReady) :
    mgr.SendMessage session now buf = (Chip.ChipError.notInitialized, mgr) ∧
    mgr.SendEncryptedMessage session now ebuf = (Chip.ChipError.notInitialized, mgr) ∧
    mgr.NewPairing peerAddr peerNodeId pairing direction admin now =
      (Chip.ChipError.notInitialized, mgr) ∧
    mgr.HandleGroupMessageReceived keyId buf now = (Chip.ChipError.notInitialized, mgr) := by
  refine ⟨?_, ?_, ?_, ?_⟩ <;>
    simp [Chip.SecureSessionMgr.SendMessage, Chip.SecureSessionMgr.SendEncryptedMessage,
      Chip.SecureSessionMgr.NewPairing, Chip.SecureSessionMgr.HandleGroupMessageReceived,
      hst]

/-- C1 witness: on a concrete `kNotReady` manager, `SendMessage` returns
`NotInitialized` and the manager is returned bit-for-bit unchanged. -/
theorem notReady_ops_fail_witness :
    (Chip.SecureSessionMgr.mk .kNotReady 0 [] 2 false).SendMessage
        (Chip.SecureSessionHandle.mk 1 2 3) 5 (Chip.PacketBuffer.mk [] 19 false) =
      (Chip.ChipError.notInitialized, Chip.SecureSessionMgr.mk .kNotReady 0 [] 2 false) :=
  (notReady_ops_fail (Chip.SecureSessionMgr.mk .kNotReady 0 [] 2 false)
    (Chip.SecureSessionHandle.mk 1 2 3) 5 (Chip.PacketBuffer.mk [] 19 false)
    ⟨none⟩ none 7 (Chip.PairingSession.mk 2 true) .kInitiator 3 2 rfl).1
